import Mathlib

/-!
Shallow embedding of the genagent declarative graph-execution engine.

The definitions below are translated from the Go sources:
  * `src/pipeline/nodes/http.go` — HTTP step executor (config validation,
    request merging, fan-out, verdict scan);
  * `src/pipeline/nodes/node.go`, `src/pipeline/registry.go` — node result
    shape and the executor registry;
  * `src/pipeline/definition.go` — the pipeline definition model and the
    orchestrator (`ExecutePipeline` / `executeNode`);
  * `src/pipeline/activities/http.go` — `GetStatus`, `enrichPipelineWithStatus`
    and `ListPipeline` (pagination and status filtering);
  * `src/policy/get_policy.go` — `GetPolicy` / `enrichPolicyWithStatus`.

Modelling conventions:
  * A Go function returning `(T, error)` is embedded as `Except String T`:
    `Except.error e` is the `(nil, err)` return and `Except.ok t` the
    `(t, nil)` return.
  * Go `map[string]T` values that are only read through lookups are embedded
    as association lists (`List (String × T)`) with `List.lookup`.
  * The opaque `json.RawMessage` node config is embedded as the parsed
    `HTTPNodeConfig`: the HTTP executor is the only node type registered by
    `initRegistry`, and every claim concerns post-parse behavior.
  * Calls into the Temporal runtime are embedded as oracle functions passed
    as arguments (`activity` for `workflow.ExecuteActivity` on the HTTP
    activity, `describe` for `DescribeWorkflowExecution`).  The oracle's
    answer stands for the outcome after the runtime's own retry policy.
  * Functions that perform externally visible calls additionally return the
    trace of those calls (list of issued requests, or list of node ids passed
    to `executeNode`) so that "which effects happened, in which order" is
    observable in the embedding.
  * Go `int` counters (page numbers, sizes, DB counts) are embedded as `Nat`:
    every code path guarded by the `page < 1` / `pageSize < 1` validation
    behaves identically, and row counts are non-negative.  HTTP status codes
    keep `Int` to mirror Go `int` faithfully in comparisons and formatting.
  * Wall-clock values (`executionTime`, dates) are carried as opaque data or
    omitted where no claim mentions them.
-/

namespace GenAgent

/-- From `nodes/http.go`: a single HTTP request configuration. -/
structure HTTPRequest where
  url : String
  method : String
  headers : List (String × String)
  body : String
  deriving DecidableEq

/-- From `nodes/http.go`: configuration of an HTTP node. -/
structure HTTPNodeConfig where
  url : String
  method : String
  requests : List HTTPRequest
  deriving DecidableEq

/-- From `nodes/http.go` (`validateRequestsFrom` models the indexed loop inside
`HTTPNodeConfig.Validate`): first request with neither its own url nor a
node-level default yields the error naming its index. -/
def validateRequestsFrom (nodeURL : String) : Nat → List HTTPRequest → Option String
  | _, [] => none
  | i, req :: rest =>
    if req.url == "" && nodeURL == "" then
      some ("request " ++ toString i ++ " missing url and no default url configured")
    else
      validateRequestsFrom nodeURL (i + 1) rest

/-- From `nodes/http.go`: `(c *HTTPNodeConfig) Validate() error`; `none` is a
nil error, `some msg` the error message. -/
def HTTPNodeConfig.Validate (c : HTTPNodeConfig) : Option String :=
  if c.requests.isEmpty then
    if c.url == "" then some "either url or requests array is required" else none
  else
    validateRequestsFrom c.url 0 c.requests

/-- From `activities/http.go`: parameters of one HTTP activity invocation. -/
structure RequestParams where
  url : String
  method : String
  headers : List (String × String)
  body : String
  deriving DecidableEq

/-- From `activities/http.go`: the result of one HTTP request. -/
structure Response where
  statusCode : Int
  headers : List (String × String)
  body : String
  deriving DecidableEq

/-- The `data` map built by the HTTP executor: `{results: [...]}`.  The
`executionTime` entry (a wall-clock duration) is outside the embedding. -/
structure HTTPNodeData where
  results : List Response
  deriving DecidableEq

/-- From `nodes/node.go`: the result of a node execution. -/
structure NodeResult where
  success : Bool
  data : Option HTTPNodeData
  error : String
  deriving DecidableEq

/-- From `nodes/http.go` (inside `Execute`'s request loop): merge one request
with the node-level defaults; method falls back to the node default and then
to `"GET"`. -/
def mergeRequest (c : HTTPNodeConfig) (req : HTTPRequest) : RequestParams :=
  { url := if req.url == "" then c.url else req.url
    method :=
      if req.method == "" then (if c.method == "" then "GET" else c.method)
      else req.method
    headers := req.headers
    body := req.body }

/-- From `nodes/http.go` (the `for _, req := range nodeConfig.Requests` loop):
issue each merged request through the activity oracle, stopping at the first
infrastructure error.  Returns the trace of issued requests together with
either the collected responses or the first infrastructure error. -/
def runRequests (activity : RequestParams → Except String Response) (c : HTTPNodeConfig) :
    List HTTPRequest → List RequestParams × Except String (List Response)
  | [] => ([], Except.ok [])
  | req :: rest =>
    let p := mergeRequest c req
    match activity p with
    | Except.error e => ([p], Except.error e)
    | Except.ok resp =>
      match runRequests activity c rest with
      | (trace, Except.error e) => (p :: trace, Except.error e)
      | (trace, Except.ok rs) => (p :: trace, Except.ok (resp :: rs))

/-- From `nodes/http.go` (the post-hoc `for i, result := range results` scan):
overall verdict; the first status code outside `[200,299]` fails the node and
stops the scan. -/
def scanResults : Nat → List Response → Bool × String
  | _, [] => (true, "")
  | i, r :: rest =>
    if r.statusCode < 200 || r.statusCode ≥ 300 then
      (false, "request " ++ toString i ++ " failed with status code " ++ toString r.statusCode)
    else
      scanResults (i + 1) rest

/-- From `nodes/http.go`: `(e *HTTPNodeExecutor) Execute`.  The first component
is the trace of requests actually issued through the activity; the second
mirrors the Go `(*NodeResult, error)` return. -/
def HTTPNodeExecutor.Execute (activity : RequestParams → Except String Response)
    (config : HTTPNodeConfig) : List RequestParams × Except String NodeResult :=
  match HTTPNodeConfig.Validate config with
  | some err => ([], Except.error err)
  | none =>
    let cfg :=
      if config.requests.isEmpty && config.url != "" then
        { config with
            requests := [{ url := config.url, method := config.method, headers := [], body := "" }] }
      else config
    match runRequests activity cfg cfg.requests with
    | (trace, Except.error e) =>
      (trace, Except.ok { success := false, data := none, error := "http activity failed: " ++ e })
    | (trace, Except.ok results) =>
      let verdict := scanResults 0 results
      (trace,
        Except.ok { success := verdict.fst, data := some { results := results }, error := verdict.snd })

/-- From `definition.go`: a node in the pipeline (config embedded as the
parsed HTTP config, the only registered node type). -/
structure PipelineNode where
  id : String
  type : String
  config : HTTPNodeConfig
  next : List String
  deriving DecidableEq

/-- From `definition.go`: a user-defined pipeline; the `nodes` map is an
association list keyed by node id (keys unique by construction in Go). -/
structure PipelineDefinition where
  name : String
  version : String
  nodes : List (String × PipelineNode)
  entryPoints : List String
  deriving DecidableEq

/-- An entry of the registry: the `Execute` method of a registered executor
(`executeNode` only calls `Execute`). -/
abbrev NodeExecutor := HTTPNodeConfig → Except String NodeResult

/-- From `nodes/node.go`: the registry mapping node types to executors. -/
abbrev Registry := List (String × NodeExecutor)

/-- From `nodes/node.go`: `Register` inserts; last writer wins. -/
def Registry.Register (r : Registry) (t : String) (e : NodeExecutor) : Registry :=
  (t, e) :: r

/-- From `nodes/node.go`: `Get` looks up the executor for a node type. -/
def Registry.Get (r : Registry) (t : String) : Option NodeExecutor :=
  r.lookup t

/-- From `nodes/node.go`: `NewRegistry` starts empty. -/
def NewRegistry : Registry := []

/-- From `registry.go`: `initRegistry` registers exactly the HTTP executor
under type `"http"`. -/
def initRegistry (activity : RequestParams → Except String Response) : Registry :=
  Registry.Register NewRegistry "http"
    (fun cfg => (HTTPNodeExecutor.Execute activity cfg).snd)

/-- From `definition.go`: node lookup in the definition's node map. -/
def lookupNode (d : PipelineDefinition) (id : String) : Option PipelineNode :=
  d.nodes.lookup id

/-- From `definition.go`: `executeNode` resolves the executor via the registry
and translates its outcome into a run error or success. -/
def executeNode (registry : Registry) (node : PipelineNode) : Except String Unit :=
  match Registry.Get registry node.type with
  | none => Except.error ("unsupported node type: " ++ node.type)
  | some exec =>
    match exec node.config with
    | Except.error e => Except.error ("failed to execute node " ++ node.id ++ ": " ++ e)
    | Except.ok result =>
      if result.success then Except.ok ()
      else Except.error ("node " ++ node.id ++ " failed: " ++ result.error)

/-- From `definition.go` (the inner `for _, nextID := range node.Next` loop of
`ExecutePipeline`): execute each next node; a missing id aborts with
"next node not found".  The first component is the trace of node ids passed to
`executeNode`, i.e. the nodes whose execution (and effects) happened. -/
def runNextNodes (registry : Registry) (d : PipelineDefinition) :
    List String → List String × Except String Unit
  | [] => ([], Except.ok ())
  | nextID :: rest =>
    match lookupNode d nextID with
    | none => ([], Except.error ("next node not found: " ++ nextID))
    | some nextNode =>
      match executeNode registry nextNode with
      | Except.error e =>
        ([nextID], Except.error ("failed to execute node " ++ nextID ++ ": " ++ e))
      | Except.ok _ =>
        match runNextNodes registry d rest with
        | (trace, res) => (nextID :: trace, res)

/-- From `definition.go` (the outer `for _, entryID := range def.EntryPoints`
loop of `ExecutePipeline`): execute each entry node and then its `next` list;
the traversal never recurses past that one hop. -/
def runEntryPoints (registry : Registry) (d : PipelineDefinition) :
    List String → List String × Except String Unit
  | [] => ([], Except.ok ())
  | entryID :: rest =>
    match lookupNode d entryID with
    | none => ([], Except.error ("entry point node not found: " ++ entryID))
    | some node =>
      match executeNode registry node with
      | Except.error e =>
        ([entryID], Except.error ("failed to execute node " ++ entryID ++ ": " ++ e))
      | Except.ok _ =>
        match runNextNodes registry d node.next with
        | (trace1, Except.error e) => (entryID :: trace1, Except.error e)
        | (trace1, Except.ok _) =>
          match runEntryPoints registry d rest with
          | (trace2, res) => (entryID :: (trace1 ++ trace2), res)

/-- From `definition.go`: `ExecutePipeline`, the main workflow executor.
Returns the trace of executed node ids together with the run outcome. -/
def ExecutePipeline (registry : Registry) (d : PipelineDefinition) :
    List String × Except String Unit :=
  runEntryPoints registry d d.entryPoints

/-- From `activities/http.go`: outcome of `DescribeWorkflowExecution` as seen
by `GetStatus` — either an error (classified by whether it is a
`temporal.ApplicationError`) or the workflow-status enum code. -/
inductive DescribeOutcome where
  | failure (isApplicationError : Bool)
  | info (statusCode : Int)
  deriving DecidableEq

/-- From `activities/http.go` (the `switch desc.WorkflowExecutionInfo.Status`
of `GetStatus`); the codes are Temporal's `WorkflowExecutionStatus` enum:
0 UNSPECIFIED, 1 RUNNING, 2 COMPLETED, 3 FAILED, 4 CANCELED, 5 TERMINATED,
6 CONTINUED_AS_NEW, 7 TIMED_OUT. -/
def statusFromCode (code : Int) : String :=
  if code = 0 then "RUNNING"
  else if code = 1 then "RUNNING"
  else if code = 2 then "COMPLETED"
  else if code = 3 then "FAILED"
  else if code = 4 then "CANCELLED"
  else if code = 5 then "TERMINATED"
  else if code = 6 then "CONTINUED_AS_NEW"
  else if code = 7 then "TIMED_OUT"
  else "UNKNOWN(" ++ toString code ++ ")"

/-- From `activities/http.go`: `GetStatus` fetches and converts the current
workflow status; describe failures fall back to FAILED (application error) or
RUNNING instead of propagating. -/
def GetStatus (describe : String → DescribeOutcome) (workflowID : String) :
    Except String String :=
  match describe workflowID with
  | DescribeOutcome.failure isApp =>
    if isApp then Except.ok "FAILED" else Except.ok "RUNNING"
  | DescribeOutcome.info code => Except.ok (statusFromCode code)

/-- From `activities/http.go`: a stored pipeline run record. -/
structure Pipeline where
  id : Nat
  workflowID : String
  status : String
  submittedDate : String
  completedDate : String
  definition : PipelineDefinition
  deriving DecidableEq

/-- From `activities/http.go`: the listing parameters used past the SQL layer.
The `search` and the four date filters only shape the SQL `WHERE` clause; they
are absorbed into the `rows` argument of `ListPipeline` below. -/
structure ListPipelineParams where
  page : Nat
  pageSize : Nat
  status : String
  deriving DecidableEq

/-- From `activities/http.go`: the listing response. -/
structure ListPipelineResponse where
  pipelines : List Pipeline
  totalItems : Nat
  currentPage : Nat
  totalPages : Nat
  deriving DecidableEq

/-- From `activities/http.go`: `enrichPipelineWithStatus` overwrites the row's
status with the runtime-reported one.  `GetStatus` returns a status on every
path and never a non-nil error (see `GetStatus` above), so the status oracle
is a total function here. -/
def enrichPipelineWithStatus (getStatus : String → String) (p : Pipeline) : Pipeline :=
  { p with status := getStatus p.workflowID }

/-- From `activities/http.go`: `ListPipeline`.  `rows` stands for the table
rows matching the non-status SQL predicate, in the query's
`ORDER BY submitted_date DESC` order; `COUNT(*)` over that predicate is
`rows.length`, and `LIMIT`/`OFFSET` is `drop`/`take`. -/
def ListPipeline (getStatus : String → String) (rows : List Pipeline)
    (params : ListPipelineParams) : Except String ListPipelineResponse :=
  if params.page < 1 then Except.error "page must be greater than 0"
  else if params.pageSize < 1 then Except.error "pageSize must be greater than 0"
  else
    let totalItems := rows.length
    let totalPages := (totalItems + params.pageSize - 1) / params.pageSize
    let totalPages1 := if totalPages = 0 then 1 else totalPages
    if params.page > totalPages1 then
      Except.error ("page " ++ toString params.page ++ " exceeds total pages " ++
        toString totalPages1)
    else
      let offset := (params.page - 1) * params.pageSize
      let rowPipelines := (rows.drop offset).take params.pageSize
      let pipelines := (rowPipelines.map (enrichPipelineWithStatus getStatus)).filter
        (fun p => params.status == "" || p.status == params.status)
      if params.status == "" then
        Except.ok { pipelines := pipelines, totalItems := totalItems,
                    currentPage := params.page, totalPages := totalPages1 }
      else
        let ti := pipelines.length
        let tp := (ti + params.pageSize - 1) / params.pageSize
        let tp1 := if tp = 0 then 1 else tp
        Except.ok { pipelines := pipelines, totalItems := ti,
                    currentPage := params.page, totalPages := tp1 }

/-- From `policy/definition.go`: a node in the policy. -/
structure PolicyNode where
  id : String
  type : String
  config : HTTPNodeConfig
  next : List String
  deriving DecidableEq

/-- From `policy/definition.go`: a user-defined policy. -/
structure PolicyDefinition where
  name : String
  version : String
  nodes : List (String × PolicyNode)
  entryPoints : List String
  deriving DecidableEq

/-- From `src/unnamed/part_000` / `get_policy.go`: a stored policy run record
(this domain's table also stores a `status` column). -/
structure Policy where
  id : Nat
  workflowID : String
  status : String
  submittedDate : String
  completedDate : String
  definition : PolicyDefinition
  deriving DecidableEq

/-- From `get_policy.go`: `enrichPolicyWithStatus` — despite its comment
("adds Temporal workflow status to the Policy"), the body hardcodes the
status to `"RUNNING"` and consults nothing. -/
def enrichPolicyWithStatus (p : Policy) : Policy :=
  { p with status := "RUNNING" }

/-- From `get_policy.go`: `GetPolicy` — fetch the row by local id (the SQL
`WHERE id = $1` single-row scan over the policy table) and enrich it.
A missing row surfaces the wrapped `sql.ErrNoRows` scan error. -/
def GetPolicy (table : List Policy) (id : Nat) : Except String Policy :=
  match table.find? (fun p => p.id == id) with
  | none => Except.error "failed to scan policy row: sql: no rows in result set"
  | some p => Except.ok (enrichPolicyWithStatus p)

/-- Specification-side (from the spec's traversal description): the depth-one
execution order — each entry id followed by its `next` list, in order. -/
def depthOneTraversal (d : PipelineDefinition) (entries : List String) : List String :=
  (entries.map (fun e =>
    match lookupNode d e with
    | some n => e :: n.next
    | none => [e])).flatten

/-- The id resolves to a node whose execution succeeds. -/
def nodeOk (registry : Registry) (d : PipelineDefinition) (x : String) : Prop :=
  ∃ m, lookupNode d x = some m ∧ executeNode registry m = Except.ok ()

/-- The entry id resolves to a node whose execution succeeds and whose `next`
ids all resolve to successfully executing nodes. -/
def entryOk (registry : Registry) (d : PipelineDefinition) (e : String) : Prop :=
  ∃ n, lookupNode d e = some n ∧ executeNode registry n = Except.ok () ∧
    ∀ x ∈ n.next, nodeOk registry d x

/-- Specification-side: the current page of rows (`LIMIT`/`OFFSET` slice). -/
def pageRows (rows : List Pipeline) (page pageSize : Nat) : List Pipeline :=
  (rows.drop ((page - 1) * pageSize)).take pageSize

/-- Specification-side: the rows of the current page that survive the status
filter after live-status enrichment. -/
def pageSurvivors (getStatus : String → String) (rows : List Pipeline)
    (params : ListPipelineParams) : List Pipeline :=
  ((pageRows rows params.page params.pageSize).map (enrichPipelineWithStatus getStatus)).filter
    (fun p => p.status == params.status)

/-- Specification-side: `ceil(totalItems / pageSize)`, minimum 1. -/
def ceilPagesMin1 (totalItems pageSize : Nat) : Nat :=
  max 1 ((totalItems + pageSize - 1) / pageSize)

/-- Demo activity oracle: every request succeeds with status 200. -/
def demoActivityOk : RequestParams → Except String Response :=
  fun p => Except.ok { statusCode := 200, headers := [], body := p.url }

/-- Demo HTTP node config: node-level url only. -/
def demoConfigA : HTTPNodeConfig := { url := "http://a", method := "", requests := [] }

/-- Demo pipeline node of type `"http"`. -/
def demoNode (i : String) (nxt : List String) : PipelineNode :=
  { id := i, type := "http", config := demoConfigA, next := nxt }

/-- Demo definition: entry `A` with `next = [B]`, and `B`'s own `next` names
`C` — so `C` is reachable only at depth two. -/
def demoDef : PipelineDefinition :=
  { name := "demo", version := "1",
    nodes := [("A", demoNode "A" ["B"]), ("B", demoNode "B" ["C"]), ("C", demoNode "C" [])],
    entryPoints := ["A"] }

/-- Demo definition with a dangling `next` reference: entry `A` has
`next = [B, X]` and `X` is absent from `nodes`. -/
def demoDefMissing : PipelineDefinition :=
  { name := "demo2", version := "1",
    nodes := [("A", demoNode "A" ["B", "X"]), ("B", demoNode "B" [])],
    entryPoints := ["A"] }

theorem runNextNodes_all_ok (registry : Registry) (d : PipelineDefinition) :
    ∀ ids : List String, (∀ x ∈ ids, nodeOk registry d x) →
      runNextNodes registry d ids = (ids, Except.ok ())
  | [], _ => rfl
  | nextID :: rest, h => by
    obtain ⟨m, hm, hexec⟩ := h nextID (List.mem_cons_self _ _)
    have ih := runNextNodes_all_ok registry d rest (fun x hx => h x (List.mem_cons_of_mem _ hx))
    simp [runNextNodes, hm, hexec, ih]

theorem runNextNodes_missing (registry : Registry) (d : PipelineDefinition) (m : String)
    (hm : lookupNode d m = none) :
    ∀ npre : List String, (∀ x ∈ npre, nodeOk registry d x) → ∀ npost : List String,
      runNextNodes registry d (npre ++ m :: npost) =
        (npre, Except.error ("next node not found: " ++ m))
  | [], _, npost => by simp [runNextNodes, hm]
  | x :: rest, h, npost => by
    obtain ⟨n, hn, hexec⟩ := h x (List.mem_cons_self _ _)
    have ih := runNextNodes_missing registry d m hm rest
      (fun y hy => h y (List.mem_cons_of_mem _ hy)) npost
    simp [runNextNodes, hn, hexec, ih]

theorem runEntryPoints_append_ok (registry : Registry) (d : PipelineDefinition) :
    ∀ es1 : List String, (∀ e ∈ es1, entryOk registry d e) → ∀ es2 : List String,
      runEntryPoints registry d (es1 ++ es2) =
        (depthOneTraversal d es1 ++ (runEntryPoints registry d es2).fst,
         (runEntryPoints registry d es2).snd)
  | [], _, es2 => by simp [depthOneTraversal]
  | e :: rest, h, es2 => by
    obtain ⟨n, hn, hexec, hnext⟩ := h e (List.mem_cons_self _ _)
    have hrun := runNextNodes_all_ok registry d n.next hnext
    have ih := runEntryPoints_append_ok registry d rest
      (fun x hx => h x (List.mem_cons_of_mem _ hx)) es2
    simp [runEntryPoints, depthOneTraversal, hn, hexec, hrun, ih]

/-- C1: for every Definition whose depth-one references all resolve and
execute successfully, the orchestrator executes exactly the entry nodes in
`entryPoints` order, each followed by the nodes of its `next` list in list
order, strictly sequentially, and nothing else — in particular no node that
is only reachable at depth two or more. -/
theorem executePipeline_depth_one (registry : Registry) (d : PipelineDefinition)
    (h : ∀ e ∈ d.entryPoints, entryOk registry d e) :
    ExecutePipeline registry d = (depthOneTraversal d d.entryPoints, Except.ok ()) := by
  unfold ExecutePipeline
  have := runEntryPoints_append_ok registry d d.entryPoints h []
  simpa [runEntryPoints, depthOneTraversal] using this

/-- Witness for C1 on `demoDef`: only `A` and its immediate successor `B` are
executed; `C` (reachable only through `B`'s own `next` list) is not. -/
theorem executePipeline_depth_one_witness :
    ExecutePipeline (initRegistry demoActivityOk) demoDef = (["A", "B"], Except.ok ()) := by
  have h : ∀ e ∈ demoDef.entryPoints, entryOk (initRegistry demoActivityOk) demoDef e := by
    intro e he
    simp [demoDef] at he
    subst he
    refine ⟨demoNode "A" ["B"], rfl, rfl, ?_⟩
    intro x hx
    simp [demoNode] at hx
    subst hx
    exact ⟨demoNode "B" ["C"], rfl, rfl⟩
  have := executePipeline_depth_one (initRegistry demoActivityOk) demoDef h
  simpa [demoDef, depthOneTraversal, demoNode] using this

/-- C4: a Definition with an `entryPoints` or `next` id absent from `nodes`
is not rejected up front; the run aborts with the definition error exactly
when the traversal reaches the missing id, and the execution trace contains
precisely the nodes executed before that point (their effects happened and
are not rolled back). -/
theorem executePipeline_lazy_missing (registry : Registry) (d : PipelineDefinition)
    (pre rest : List String) (hsplit : d.entryPoints = pre ++ rest)
    (hpre : ∀ e ∈ pre, entryOk registry d e) :
    (∀ e rest2, rest = e :: rest2 → lookupNode d e = none →
      ExecutePipeline registry d =
        (depthOneTraversal d pre, Except.error ("entry point node not found: " ++ e)))
    ∧ (∀ e rest2 n npre m npost, rest = e :: rest2 →
        lookupNode d e = some n → executeNode registry n = Except.ok () →
        n.next = npre ++ m :: npost → (∀ x ∈ npre, nodeOk registry d x) →
        lookupNode d m = none →
        ExecutePipeline registry d =
          (depthOneTraversal d pre ++ e :: npre,
           Except.error ("next node not found: " ++ m))) := by
  constructor
  · intro e rest2 hrest he
    subst hrest
    unfold ExecutePipeline
    rw [hsplit, runEntryPoints_append_ok registry d pre hpre (e :: rest2)]
    simp [runEntryPoints, he]
  · intro e rest2 n npre m npost hrest hn hexec hnexts hnpre hm
    subst hrest
    unfold ExecutePipeline
    rw [hsplit, runEntryPoints_append_ok registry d pre hpre (e :: rest2)]
    have hrun := runNextNodes_missing registry d m hm npre hnpre npost
    simp [runEntryPoints, hn, hexec, hnexts, hrun]

/-- Witness for C4 on `demoDefMissing`: the dangling reference `X` is only
discovered after `A` and `B` have executed; the trace shows both ran. -/
theorem executePipeline_lazy_missing_witness :
    ExecutePipeline (initRegistry demoActivityOk) demoDefMissing =
      (["A", "B"], Except.error "next node not found: X") := by
  have h := (executePipeline_lazy_missing (initRegistry demoActivityOk) demoDefMissing
    [] ["A"] rfl (by simp)).2
  have h2 := h "A" [] (demoNode "A" ["B", "X"]) ["B"] "X" [] rfl rfl rfl rfl
    (by
      intro x hx
      simp at hx
      subst hx
      exact ⟨demoNode "B" [], rfl, rfl⟩) rfl
  simpa [depthOneTraversal] using h2

theorem runRequests_all_ok (activity : RequestParams → Except String Response)
    (c : HTTPNodeConfig) (r : HTTPRequest → Response) :
    ∀ reqs : List HTTPRequest,
      (∀ q ∈ reqs, activity (mergeRequest c q) = Except.ok (r q)) →
      runRequests activity c reqs = (reqs.map (mergeRequest c), Except.ok (reqs.map r))
  | [], _ => rfl
  | q :: rest, h => by
    have hq := h q (List.mem_cons_self _ _)
    have ih := runRequests_all_ok activity c r rest (fun x hx => h x (List.mem_cons_of_mem _ hx))
    simp [runRequests, hq, ih]

theorem runRequests_fail_at (activity : RequestParams → Except String Response)
    (c : HTTPNodeConfig) (r : HTTPRequest → Response) (e : String) :
    ∀ qpre : List HTTPRequest, (∀ x ∈ qpre, activity (mergeRequest c x) = Except.ok (r x)) →
      ∀ q qpost, activity (mergeRequest c q) = Except.error e →
      runRequests activity c (qpre ++ q :: qpost) =
        (qpre.map (mergeRequest c) ++ [mergeRequest c q], Except.error e)
  | [], _, q, qpost, hfail => by simp [runRequests, hfail]
  | x :: rest, h, q, qpost, hfail => by
    have hx := h x (List.mem_cons_self _ _)
    have ih := runRequests_fail_at activity c r e rest
      (fun y hy => h y (List.mem_cons_of_mem _ hy)) q qpost hfail
    simp [runRequests, hx, ih]

theorem scanResults_first_bad :
    ∀ (i : Nat) (good : List Response),
      (∀ x ∈ good, 200 ≤ x.statusCode ∧ x.statusCode < 300) →
      ∀ (bad : Response) (rest : List Response),
        (bad.statusCode < 200 ∨ bad.statusCode ≥ 300) →
        scanResults i (good ++ bad :: rest) =
          (false, "request " ++ toString (i + good.length) ++ " failed with status code " ++
            toString bad.statusCode)
  | i, [], _, bad, rest, hbad => by
    have hc : (decide (bad.statusCode < 200) || decide (bad.statusCode ≥ 300)) = true := by
      rcases hbad with h | h <;> simp [h]
    simp [scanResults, hc]
  | i, x :: good, h, bad, rest, hbad => by
    have hx := h x (List.mem_cons_self _ _)
    have hc : (decide (x.statusCode < 200) || decide (x.statusCode ≥ 300)) = false := by
      simp only [Bool.or_eq_false_iff, decide_eq_false_iff_not, not_lt, ge_iff_le, not_le]
      omega
    have ih := scanResults_first_bad (i + 1) good
      (fun y hy => h y (List.mem_cons_of_mem _ hy)) bad rest hbad
    have hidx : i + 1 + good.length = i + (x :: good).length := by
      simp [List.length_cons]; omega
    rw [List.cons_append]
    simp only [scanResults, hc, Bool.false_eq_true, if_false]
    rw [ih, hidx]

/-- C5: when every request of an HTTP node completes without infrastructure
error, the verdict is a post-hoc scan of the collected results: the first
result with a status code outside `[200,299]` makes the node fail with the
message naming that request's index and code, while `data.results` still has
one entry per issued request. -/
theorem httpExecute_post_hoc_scan (activity : RequestParams → Except String Response)
    (config : HTTPNodeConfig) (r : HTTPRequest → Response)
    (qpre : List HTTPRequest) (q : HTTPRequest) (qpost : List HTTPRequest)
    (hv : HTTPNodeConfig.Validate config = none)
    (hsplit : config.requests = qpre ++ q :: qpost)
    (hresp : ∀ x ∈ config.requests, activity (mergeRequest config x) = Except.ok (r x))
    (hgood : ∀ x ∈ qpre, 200 ≤ (r x).statusCode ∧ (r x).statusCode < 300)
    (hbad : (r q).statusCode < 200 ∨ (r q).statusCode ≥ 300) :
    HTTPNodeExecutor.Execute activity config =
      (config.requests.map (mergeRequest config),
        Except.ok { success := false,
                    data := some { results := config.requests.map r },
                    error := "request " ++ toString qpre.length ++
                      " failed with status code " ++ toString (r q).statusCode }) ∧
    (config.requests.map r).length = config.requests.length := by
  have hne : config.requests.isEmpty = false := by rw [hsplit]; cases qpre <;> rfl
  have hrun := runRequests_all_ok activity config r config.requests hresp
  have hscan : scanResults 0 (config.requests.map r) =
      (false, "request " ++ toString qpre.length ++ " failed with status code " ++
        toString (r q).statusCode) := by
    rw [hsplit, List.map_append, List.map_cons]
    have := scanResults_first_bad 0 (qpre.map r)
      (by intro y hy; obtain ⟨x, hx, rfl⟩ := List.mem_map.mp hy; exact hgood x hx)
      (r q) (qpost.map r) hbad
    simpa [List.length_map] using this
  constructor
  · unfold HTTPNodeExecutor.Execute
    rw [hv]
    rw [if_neg (by simp [hne])]
    dsimp only
    rw [hrun]
    simp [hscan]
  · simp [List.length_map]

/-- Demo request with a url override only. -/
def demoReq (u : String) : HTTPRequest :=
  { url := u, method := "", headers := [], body := "" }

/-- Demo config with two explicit requests. -/
def demoConfigTwo : HTTPNodeConfig :=
  { url := "", method := "", requests := [demoReq "http://one", demoReq "http://two"] }

/-- Demo activity: 404 for the second url, 200 otherwise. -/
def demoActivityTwo : RequestParams → Except String Response :=
  fun p =>
    if p.url == "http://two" then Except.ok { statusCode := 404, headers := [], body := "" }
    else Except.ok { statusCode := 200, headers := [], body := "" }

/-- The response `demoActivityTwo` gives to each merged demo request. -/
def demoRespOf (x : HTTPRequest) : Response :=
  if x.url == "http://two" then { statusCode := 404, headers := [], body := "" }
  else { statusCode := 200, headers := [], body := "" }

/-- Witness for C5: requests answering 200 then 404 give `success := false`,
an error naming index 1 and code 404, and both results present. -/
theorem httpExecute_post_hoc_scan_witness :
    HTTPNodeExecutor.Execute demoActivityTwo demoConfigTwo =
      ([mergeRequest demoConfigTwo (demoReq "http://one"),
        mergeRequest demoConfigTwo (demoReq "http://two")],
        Except.ok { success := false,
                    data := some { results := [{ statusCode := 200, headers := [], body := "" },
                                               { statusCode := 404, headers := [], body := "" }] },
                    error := "request 1 failed with status code 404" }) := by
  have h := httpExecute_post_hoc_scan demoActivityTwo demoConfigTwo demoRespOf
    [demoReq "http://one"] (demoReq "http://two") [] rfl rfl
    (by
      intro x hx
      simp [demoConfigTwo] at hx
      rcases hx with hx | hx <;> subst hx <;> rfl)
    (by
      intro x hx
      simp at hx
      subst hx
      constructor <;> decide)
    (Or.inr (by decide))
  simpa [demoConfigTwo, demoRespOf, demoReq] using h.1

/-- C6: if some request's activity call fails with an infrastructure error
(after the runtime's retries), the node stops at that request — later
requests are never issued — and `Execute` returns the logical failure
`NodeResult` with message `"http activity failed: <cause>"` and a nil
Go-level error (`Except.ok`, never `Except.error`). -/
theorem httpExecute_activity_failure (activity : RequestParams → Except String Response)
    (config : HTTPNodeConfig) (r : HTTPRequest → Response)
    (qpre : List HTTPRequest) (q : HTTPRequest) (qpost : List HTTPRequest) (e : String)
    (hv : HTTPNodeConfig.Validate config = none)
    (hsplit : config.requests = qpre ++ q :: qpost)
    (hok : ∀ x ∈ qpre, activity (mergeRequest config x) = Except.ok (r x))
    (hfail : activity (mergeRequest config q) = Except.error e) :
    HTTPNodeExecutor.Execute activity config =
      (qpre.map (mergeRequest config) ++ [mergeRequest config q],
        Except.ok { success := false, data := none, error := "http activity failed: " ++ e }) := by
  have hne : config.requests.isEmpty = false := by rw [hsplit]; cases qpre <;> rfl
  have hrun := runRequests_fail_at activity config r e qpre hok q qpost hfail
  unfold HTTPNodeExecutor.Execute
  rw [hv]
  rw [if_neg (by simp [hne])]
  dsimp only
  rw [hsplit, hrun]

/-- Demo config with three explicit requests. -/
def demoConfigThree : HTTPNodeConfig :=
  { url := "", method := "",
    requests := [demoReq "http://one", demoReq "http://two", demoReq "http://three"] }

/-- Demo activity: infrastructure error on the second url, 200 otherwise. -/
def demoActivityBoom : RequestParams → Except String Response :=
  fun p =>
    if p.url == "http://two" then Except.error "boom"
    else Except.ok { statusCode := 200, headers := [], body := "" }

/-- Witness for C6: the second of three requests fails at the activity level;
the third is never issued and the node reports the logical failure with a nil
Go-level error. -/
theorem httpExecute_activity_failure_witness :
    HTTPNodeExecutor.Execute demoActivityBoom demoConfigThree =
      ([mergeRequest demoConfigThree (demoReq "http://one"),
        mergeRequest demoConfigThree (demoReq "http://two")],
        Except.ok { success := false, data := none, error := "http activity failed: boom" }) := by
  have h := httpExecute_activity_failure demoActivityBoom demoConfigThree
    (fun _ => { statusCode := 200, headers := [], body := "" })
    [demoReq "http://one"] (demoReq "http://two") [demoReq "http://three"] "boom"
    rfl rfl
    (by
      intro x hx
      simp at hx
      subst hx
      rfl)
    rfl
  simpa using h

theorem validateRequestsFrom_none_iff (u : String) :
    ∀ (i : Nat) (reqs : List HTTPRequest),
      validateRequestsFrom u i reqs = none ↔ ∀ x ∈ reqs, x.url ≠ "" ∨ u ≠ ""
  | _, [] => by simp [validateRequestsFrom]
  | i, x :: rest => by
    have ih := validateRequestsFrom_none_iff u (i + 1) rest
    simp only [List.mem_cons, forall_eq_or_imp]
    by_cases h1 : x.url = ""
    · by_cases h2 : u = ""
      · simp [validateRequestsFrom, h1, h2]
      · simp [validateRequestsFrom, h1, h2, ih]
    · simp [validateRequestsFrom, h1, ih]

theorem validateRequestsFrom_first_bad :
    ∀ (i : Nat) (qpre : List HTTPRequest), (∀ x ∈ qpre, x.url ≠ "") →
      ∀ (q : HTTPRequest) (qpost : List HTTPRequest), q.url = "" →
      validateRequestsFrom "" i (qpre ++ q :: qpost) =
        some ("request " ++ toString (i + qpre.length) ++
          " missing url and no default url configured")
  | i, [], _, q, qpost, hq => by simp [validateRequestsFrom, hq]
  | i, x :: rest, h, q, qpost, hq => by
    have hx := h x (List.mem_cons_self _ _)
    have ih := validateRequestsFrom_first_bad (i + 1) rest
      (fun y hy => h y (List.mem_cons_of_mem _ hy)) q qpost hq
    have hidx : i + 1 + rest.length = i + (x :: rest).length := by
      simp [List.length_cons]; omega
    rw [List.cons_append]
    show validateRequestsFrom "" i (x :: (rest ++ q :: qpost)) = _
    unfold validateRequestsFrom
    rw [if_neg (by simp [hx])]
    rw [ih, hidx]

/-- C9: for an HTTP node configuration, an empty `requests` list validates
exactly when a node-level url is present; a non-empty `requests` list
validates exactly when every request has its own url or a node-level default
exists; the first request with neither produces the error naming its index;
and a configuration that fails validation makes `Execute` return before any
external call is attempted (empty request trace). -/
theorem httpValidate_spec (c : HTTPNodeConfig)
    (activity : RequestParams → Except String Response) :
    (c.requests = [] → (HTTPNodeConfig.Validate c = none ↔ c.url ≠ ""))
    ∧ (c.requests ≠ [] →
        (HTTPNodeConfig.Validate c = none ↔ ∀ x ∈ c.requests, x.url ≠ "" ∨ c.url ≠ ""))
    ∧ (∀ qpre q qpost, c.requests = qpre ++ q :: qpost →
        (∀ x ∈ qpre, x.url ≠ "") → q.url = "" → c.url = "" →
        HTTPNodeConfig.Validate c =
          some ("request " ++ toString qpre.length ++
            " missing url and no default url configured"))
    ∧ (∀ err, HTTPNodeConfig.Validate c = some err →
        HTTPNodeExecutor.Execute activity c = ([], Except.error err)) := by
  refine ⟨?_, ?_, ?_, ?_⟩
  · intro hreq
    unfold HTTPNodeConfig.Validate
    rw [hreq]
    by_cases hu : c.url = "" <;> simp [hu]
  · intro hreq
    unfold HTTPNodeConfig.Validate
    rw [if_neg (by simp [List.isEmpty_iff, hreq])]
    exact validateRequestsFrom_none_iff c.url 0 c.requests
  · intro qpre q qpost hsplit hpre hq hu
    unfold HTTPNodeConfig.Validate
    rw [if_neg (by rw [hsplit]; cases qpre <;> simp)]
    rw [hsplit, hu]
    have := validateRequestsFrom_first_bad 0 qpre hpre q qpost hq
    simpa using this
  · intro err herr
    unfold HTTPNodeExecutor.Execute
    rw [herr]

/-- Demo invalid config: second request has no url and there is no node-level
default. -/
def demoConfigBad : HTTPNodeConfig :=
  { url := "", method := "", requests := [demoReq "http://one", demoReq ""] }

/-- Witness for C9: the offending index is named and `Execute` issues no
request. -/
theorem httpValidate_spec_witness :
    HTTPNodeConfig.Validate demoConfigBad =
      some "request 1 missing url and no default url configured" ∧
    HTTPNodeExecutor.Execute demoActivityOk demoConfigBad =
      ([], Except.error "request 1 missing url and no default url configured") := by
  have h := httpValidate_spec demoConfigBad demoActivityOk
  have hval := h.2.2.1 [demoReq "http://one"] (demoReq "") [] rfl
    (by
      intro x hx
      simp at hx
      subst hx
      simp [demoReq])
    rfl rfl
  exact ⟨hval, h.2.2.2 _ hval⟩

/-- C10: an HTTP node whose config fails validation makes `Execute` return a
nil `NodeResult` with a non-nil Go error (the infrastructure-error channel),
which the orchestrator surfaces wrapped as
`"failed to execute node <id>: <cause>"` rather than as a logical
`NodeResult{success:false}` failure. -/
theorem executeNode_validation_error (activity : RequestParams → Except String Response)
    (node : PipelineNode) (err : String)
    (htype : node.type = "http")
    (hval : HTTPNodeConfig.Validate node.config = some err) :
    (HTTPNodeExecutor.Execute activity node.config).snd = Except.error err ∧
    executeNode (initRegistry activity) node =
      Except.error ("failed to execute node " ++ node.id ++ ": " ++ err) := by
  have hexec : HTTPNodeExecutor.Execute activity node.config = ([], Except.error err) := by
    unfold HTTPNodeExecutor.Execute
    rw [hval]
  constructor
  · rw [hexec]
  · unfold executeNode
    rw [htype]
    simp [Registry.Get, initRegistry, Registry.Register, NewRegistry, List.lookup, hexec]

/-- Demo node whose HTTP config is invalid (no url, no requests). -/
def demoBadNode : PipelineNode :=
  { id := "N", type := "http",
    config := { url := "", method := "", requests := [] }, next := [] }

/-- Witness for C10 on `demoBadNode`. -/
theorem executeNode_validation_error_witness :
    (HTTPNodeExecutor.Execute demoActivityOk demoBadNode.config).snd =
      Except.error "either url or requests array is required" ∧
    executeNode (initRegistry demoActivityOk) demoBadNode =
      Except.error "failed to execute node N: either url or requests array is required" :=
  executeNode_validation_error demoActivityOk demoBadNode
    "either url or requests array is required" rfl rfl

/-- C7: when the describe call against the Durable Execution Runtime fails,
`GetStatus` reports FAILED for an application-level error and RUNNING for any
other failure, and in neither case propagates an error to the caller. -/
theorem getStatus_describe_failure (describe : String → DescribeOutcome)
    (workflowID : String) (isApp : Bool)
    (h : describe workflowID = DescribeOutcome.failure isApp) :
    GetStatus describe workflowID = Except.ok (if isApp then "FAILED" else "RUNNING") := by
  unfold GetStatus
  rw [h]
  cases isApp <;> rfl

/-- Witness for C7: both failure kinds, neither propagated as an error. -/
theorem getStatus_describe_failure_witness :
    GetStatus (fun _ => DescribeOutcome.failure false) "wf" = Except.ok "RUNNING" ∧
    GetStatus (fun _ => DescribeOutcome.failure true) "wf" = Except.ok "FAILED" :=
  ⟨getStatus_describe_failure (fun _ => DescribeOutcome.failure false) "wf" false rfl,
   getStatus_describe_failure (fun _ => DescribeOutcome.failure true) "wf" true rfl⟩

/-- Demo stored policy row: a run whose workflow has finished — the stored
status column says COMPLETED (and a live describe of its workflow id would
agree). -/
def demoPolicyRow : Policy :=
  { id := 1, workflowID := "policy_demo_1_20250101000000", status := "COMPLETED",
    submittedDate := "2025-01-01T00:00:00Z", completedDate := "2025-01-01T00:05:00Z",
    definition := { name := "demo", version := "1", nodes := [], entryPoints := [] } }

/-- C3 (code bug, policy domain): fetching a stored run by local id does not
return a live-reconciled status — `enrichPolicyWithStatus` hardcodes
`"RUNNING"` and never calls the Durable Execution Runtime with the stored
execution id, so even a completed run's row comes back as RUNNING. -/
theorem getPolicy_status_not_live :
    demoPolicyRow.status = "COMPLETED" ∧
    GetPolicy [demoPolicyRow] 1 = Except.ok { demoPolicyRow with status := "RUNNING" } :=
  ⟨rfl, rfl⟩

theorem ifZero_eq_max1 (n : Nat) : (if n = 0 then 1 else n) = max 1 n := by
  cases n with
  | zero => rfl
  | succ k =>
    have h : max 1 (k + 1) = k + 1 := Nat.max_eq_right (Nat.succ_le_succ (Nat.zero_le k))
    simp [h]

/-- C2: with a status filter supplied, `totalItems` is the number of rows of
the current page that survived the filter (not a global count), and
`totalPages` is `ceil(totalItems / pageSize)` with minimum 1. -/
theorem listPipeline_status_filter_page_local (getStatus : String → String)
    (rows : List Pipeline) (params : ListPipelineParams)
    (h1 : 1 ≤ params.page) (h2 : 1 ≤ params.pageSize) (h3 : params.status ≠ "")
    (h4 : params.page ≤ ceilPagesMin1 rows.length params.pageSize) :
    ListPipeline getStatus rows params =
      Except.ok { pipelines := pageSurvivors getStatus rows params,
                  totalItems := (pageSurvivors getStatus rows params).length,
                  currentPage := params.page,
                  totalPages :=
                    ceilPagesMin1 (pageSurvivors getStatus rows params).length params.pageSize } := by
  have hb : (params.status == "") = false := by
    simp only [beq_eq_false_iff_ne, ne_eq]
    exact h3
  unfold ListPipeline
  rw [if_neg (by omega)]
  rw [if_neg (by omega)]
  dsimp only
  simp only [ifZero_eq_max1]
  have h4m : params.page ≤ max 1 ((rows.length + params.pageSize - 1) / params.pageSize) := h4
  rw [if_neg (Nat.not_lt.mpr h4m)]
  rw [hb]
  simp only [Bool.false_eq_true, if_false, Bool.false_or]
  rfl

/-- Demo status oracle for listing: `wf1` reports FAILED, everything else
RUNNING. -/
def demoGetStatus : String → String :=
  fun w => if w == "wf1" then "FAILED" else "RUNNING"

/-- Four stored rows `wf0..wf3`; under `demoGetStatus` three of them are
RUNNING, but only one of the two rows on page 1 (pageSize 2). -/
def demoRows4 : List Pipeline :=
  (List.range 4).map (fun i =>
    { id := i, workflowID := "wf" ++ toString i, status := "",
      submittedDate := "", completedDate := "", definition := demoDef })

/-- Witness for C2: with `status=RUNNING`, page 1 of size 2 over `demoRows4`
reports `totalItems = 1` (the page-local survivor count) even though 3 rows
are RUNNING globally. -/
theorem listPipeline_status_filter_page_local_witness :
    (ListPipeline demoGetStatus demoRows4 { page := 1, pageSize := 2, status := "RUNNING" }).map
        (fun r => (r.totalItems, r.totalPages, r.pipelines.length)) =
      Except.ok (1, 1, 1) ∧
    ((demoRows4.map (enrichPipelineWithStatus demoGetStatus)).filter
        (fun p => p.status == "RUNNING")).length = 3 := by
  have h := listPipeline_status_filter_page_local demoGetStatus demoRows4
    { page := 1, pageSize := 2, status := "RUNNING" }
    (by decide) (by decide) (by decide) (by decide)
  constructor
  · rw [h]
    rfl
  · rfl

/-- C8: without a status filter, `totalPages = ceil(totalItems / pageSize)`
with minimum 1, the requested page is returned in full, and a page beyond
`totalPages` is rejected with the pagination error rather than clamped. -/
theorem listPipeline_pagination (getStatus : String → String)
    (rows : List Pipeline) (params : ListPipelineParams)
    (h1 : 1 ≤ params.page) (h2 : 1 ≤ params.pageSize) (h3 : params.status = "") :
    (params.page ≤ ceilPagesMin1 rows.length params.pageSize →
      ListPipeline getStatus rows params =
        Except.ok { pipelines :=
                      (pageRows rows params.page params.pageSize).map
                        (enrichPipelineWithStatus getStatus),
                    totalItems := rows.length,
                    currentPage := params.page,
                    totalPages := ceilPagesMin1 rows.length params.pageSize })
    ∧ (ceilPagesMin1 rows.length params.pageSize < params.page →
      ListPipeline getStatus rows params =
        Except.error ("page " ++ toString params.page ++ " exceeds total pages " ++
          toString (ceilPagesMin1 rows.length params.pageSize))) := by
  have hb : (params.status == "") = true := by
    rw [h3]
    rfl
  constructor
  · intro hle
    unfold ListPipeline
    rw [if_neg (by omega)]
    rw [if_neg (by omega)]
    dsimp only
    simp only [ifZero_eq_max1]
    have hlem : params.page ≤ max 1 ((rows.length + params.pageSize - 1) / params.pageSize) := hle
    rw [if_neg (Nat.not_lt.mpr hlem)]
    rw [hb]
    simp only [if_true, Bool.true_or, List.filter_true]
    rfl
  · intro hgt
    unfold ListPipeline
    rw [if_neg (by omega)]
    rw [if_neg (by omega)]
    dsimp only
    simp only [ifZero_eq_max1]
    have hgtm : max 1 ((rows.length + params.pageSize - 1) / params.pageSize) < params.page := hgt
    rw [if_pos hgtm]
    rfl

/-- 25 stored rows for the C8 example. -/
def demoRows25 : List Pipeline :=
  (List.range 25).map (fun i =>
    { id := i, workflowID := "wf" ++ toString i, status := "",
      submittedDate := "", completedDate := "", definition := demoDef })

/-- Witness for C8: 25 rows with pageSize 10 — page 1 returns 10 items and
`totalPages = 3`; page 4 is a pagination error. -/
theorem listPipeline_pagination_witness :
    (ListPipeline (fun _ => "RUNNING") demoRows25 { page := 1, pageSize := 10, status := "" }).map
        (fun r => (r.pipelines.length, r.totalItems, r.totalPages)) =
      Except.ok (10, 25, 3) ∧
    ListPipeline (fun _ => "RUNNING") demoRows25 { page := 4, pageSize := 10, status := "" } =
      Except.error "page 4 exceeds total pages 3" := by
  have hpage1 := (listPipeline_pagination (fun _ => "RUNNING") demoRows25
    { page := 1, pageSize := 10, status := "" } (by decide) (by decide) rfl).1 (by decide)
  have hpage4 := (listPipeline_pagination (fun _ => "RUNNING") demoRows25
    { page := 4, pageSize := 10, status := "" } (by decide) (by decide) rfl).2 (by decide)
  constructor
  · rw [hpage1]
    rfl
  · rw [hpage4]
    rfl

end GenAgent
